import Mathlib

/-!
Verification development for the query-construction and execution engine of
the `themost` data-access layer (file `src/modules/@themost/data/queryable.js`,
with the model layer `DataModel` from the `data/model` source).

The JavaScript sources are embedded shallowly:

* mutable builder objects (`DataQueryable`, the wrapped query expression)
  become immutable Lean structures with explicit state passing;
* JS `undefined`/`null` slots become `Option`;
* JS exceptions and callback errors become `Except String`;
* the database adapter and the `mapping-extensions` module are external
  collaborators of the engine (spec sections 1 and 6); they are modelled by an
  execution environment carrying the rows matched by the query's filter, the
  outcome of the `before.execute`/`after.execute` hook chains, and a
  row-attachment function for association expansion.

Every definition carries a pointer to the source lines it embeds.
-/

namespace Themost

/-- A JS scalar value as it appears inside result rows. -/
inductive JValue where
  | vNull : JValue
  | vBool : Bool → JValue
  | vInt : Int → JValue
  | vStr : String → JValue
deriving DecidableEq

/-- JS truthiness of a scalar value (`if (x[key])`, `queryable.js` line 2507). -/
def JValue.truthy : JValue → Bool
  | .vNull => false
  | .vBool b => b
  | .vInt n => n != 0
  | .vStr s => s != ""

/-- A result row: a JS object, i.e. an ordered list of key/value pairs
(`Object.keys` enumerates in insertion order). -/
abbrev Row := List (String × JValue)

/-- Property access `row[key]` (JS `undefined` becomes `none`). -/
def Row.lookup (r : Row) (k : String) : Option JValue :=
  (r.find? (fun kv => kv.1 == k)).map (·.2)

/-- Embedding of `DataAssociationMapping` (`data/types`): the association
descriptor built and consumed by `inferMapping` and the attribute resolver.
Slots that JS leaves `undefined` (for instance `childModel` of a primitive tag
junction) are embedded as the empty string. -/
structure AssociationMapping where
  associationType : String
  parentModel : String
  parentField : String
  childModel : String
  childField : String
  associationAdapter : Option String := none
  cascade : String := "null"
  refersTo : Option String := none
deriving DecidableEq

/-- Embedding of a `DataField` item of `DataModel.attributes` (the computed
attribute list; each attribute of these models is owned by the model itself,
so the JS `model` override property equals the owning model's name and is not
carried). `many` keeps its three JS states (`undefined`/`true`/`false`). -/
structure DataField where
  name : String
  ftype : String
  property : Option String := none
  many : Option Bool := none
  expandable : Bool := false
  hidden : Bool := false
  mapping : Option AssociationMapping := none
deriving DecidableEq

/-- JS truthiness of `field.many` (`queryable.js` line 1209). -/
def DataField.jsMany (f : DataField) : Bool := f.many == some true

/-- Embedding of `DataModel`: name, backing view adapter, primary-key
designation and the computed attribute list. -/
structure DataModel where
  name : String
  viewAdapter : String
  primaryKey : String
  attributes : List DataField
deriving DecidableEq

/-- Embedding of `DataModel.prototype.field` (`data/model` lines 1435-1439):
finds an attribute by name or by property alias. -/
def DataModel.field (self : DataModel) (n : String) : Option DataField :=
  self.attributes.find? (fun x => x.name == n || x.property == some n)

/-- The data context: the model collection reachable through
`context.model(name)` plus the configured primitive data-type names
(`configuration.dataTypes`, used by tag-mapping inference). -/
structure DataContext where
  models : List DataModel
  dataTypes : List String := []

/-- Lookup `context.model(name)`. -/
def DataContext.model (ctx : DataContext) (n : String) : Option DataModel :=
  ctx.models.find? (fun m => m.name == n)

/-- Embedding of lodash `_.upperFirst` (used for junction adapter naming,
`data/model` lines 59 and 1644). -/
def upperFirst (s : String) : String :=
  match s.data with
  | [] => ""
  | c :: cs => String.mk (c.toUpper :: cs)

/-- Embedding of the pluralization test `DataModel.PluralExpression`
(`data/model` line 2574, the regex `([a-zA-Z]+?)([e']s|[^aiou]s)$`): the name
ends in `s`, the character before it is not one of `a`,`i`,`o`,`u`, and a
letter precedes that pair. -/
def pluralTest (s : String) : Bool :=
  match s.data.reverse with
  | 's' :: x :: y :: _ => !(['a', 'i', 'o', 'u'].contains x) && y.isAlpha
  | _ => false

/-- Embedding of `inferTagMapping_` (`data/model` lines 39-69): a primitive
tag collection for a field with `many == true` whose type is a configured
primitive data type. -/
def inferTagMapping (ctx : DataContext) (self : DataModel) (field : DataField) :
    Option AssociationMapping :=
  if field.many == some true then
    if ctx.dataTypes.contains field.ftype then
      some { associationType := "junction"
             associationAdapter := some (self.name ++ upperFirst field.name)
             cascade := "delete"
             parentModel := self.name
             parentField := self.primaryKey
             childModel := ""
             childField := ""
             refersTo := some field.name }
    else none
  else none

/-- Embedding of `DataModel.prototype.inferMapping` (`data/model` lines
1484-1672) for models whose attributes are their own (no inherited fields, so
the inherited-association branch at lines 1506-1563 is never entered, exactly
as in the source where own fields carry `model === self.name`). The
per-configuration mapping cache (lines 1487-1499) only memoizes the computed
value and is dropped. JS `null`/`undefined` results both become `none`. -/
def DataModel.inferMapping (ctx : DataContext) (self : DataModel) (name : String) :
    Option AssociationMapping :=
  match self.field name with
  | none => none
  | some field =>
    match field.mapping with
    | some mp => some mp
    | none =>
      match ctx.model field.ftype with
      | none => inferTagMapping ctx self field
      | some associatedModel =>
        match associatedModel.attributes.find? (fun x => x.ftype == self.name) with
        | some associatedField =>
          if associatedField.jsMany then
            some { parentModel := associatedModel.name
                   parentField := associatedModel.primaryKey
                   childModel := self.name
                   childField := field.name
                   associationType := "association"
                   cascade := "null" }
          else
            some { parentModel := self.name
                   parentField := self.primaryKey
                   childModel := associatedModel.name
                   childField := associatedField.name
                   associationType := "association"
                   cascade := "null"
                   refersTo := some (field.property.getD field.name) }
        | none =>
          if pluralTest field.name || field.jsMany then
            some { associationAdapter := some (self.name ++ upperFirst field.name)
                   parentModel := self.name
                   parentField := self.primaryKey
                   childModel := associatedModel.name
                   childField := associatedModel.primaryKey
                   associationType := "junction"
                   cascade := "delete" }
          else
            some { parentModel := associatedModel.name
                   parentField := associatedModel.primaryKey
                   childModel := self.name
                   childField := field.name
                   associationType := "association"
                   cascade := "null" }

/-! ## Query expression layer (the `most-query` objects as used by `queryable.js`) -/

/-- A select-list item (`QueryField` of `most-query`) in the shapes produced
by `queryable.js`: a plain field of the base entity, a field drawn `.from` a
named entity, an aliased field (`.as`), or a `count` aggregate field. -/
inductive QField where
  | plain : String → QField
  | fromEnt : String → String → QField
  | aliased : QField → String → QField
  | count : String → String → QField
deriving DecidableEq

/-- The underlying field name of a select item (`QueryField.prototype.name()`
as used by the hidden-field and expandable-field scans at `queryable.js`
lines 2206-2222). -/
def QField.nameOf : QField → String
  | .plain n => n
  | .fromEnt n _ => n
  | .aliased b _ => b.nameOf
  | .count n _ => n

/-- One half of a join predicate: `qry.fields.select(field).from(entity)`. -/
structure FieldRef where
  field : String
  entity : String
deriving DecidableEq

/-- A join item of a query's `$expand` list:
`{ $entity: qry.entity(name).as(alias).left(), $with: left = right }`
as built by `resolveNestedAttributeJoin` (`queryable.js` lines 200-231). -/
structure JoinExpr where
  entity : String
  asName : String
  leftJoin : Bool
  onLeft : FieldRef
  onRight : FieldRef
deriving DecidableEq

/-- The `$expand` slot of a query expression, which JS leaves `undefined`,
or holds a single join object, or an array of joins (`queryable.js` lines
129-152 switch on exactly these three states). -/
inductive ExpandSlot where
  | undef : ExpandSlot
  | single : JoinExpr → ExpandSlot
  | list : List JoinExpr → ExpandSlot
deriving DecidableEq

/-- The joins held by an `$expand` slot. -/
def ExpandSlot.joins : ExpandSlot → List JoinExpr
  | .undef => []
  | .single j => [j]
  | .list js => js

/-- Embedding of the `most-query` `QueryExpression` state manipulated by
`queryable.js`: base entity, `$select` fields (keyed by the base entity),
`$skip`, `$take`, `$order`, `$group` (order and group items are opaque here)
and the `$expand` join list. The filter (`$where`) is not represented: the
execution environment abstracts the adapter by the rows matching it. -/
structure QueryExpr where
  entity : String
  selectFields : Option (List QField) := none
  skipN : Option Nat := none
  takeN : Option Nat := none
  orderList : Option (List QField) := none
  groupList : Option (List QField) := none
  expandJoins : ExpandSlot := .undef
deriving DecidableEq

/-- `query.fields()` of `most-query`: the select items, `[]` when `$select`
is undefined. -/
def QueryExpr.fields (q : QueryExpr) : List QField := q.selectFields.getD []

/-- `query.hasFields()` of `most-query`: whether the select list is
non-empty. -/
def QueryExpr.hasFields (q : QueryExpr) : Bool := !q.fields.isEmpty

/-- An entry of `DataQueryable.$expand` (not of the query's join list): a
plain attribute name string, an `{name, options}` object, or a
`DataAssociationMapping` object (`queryable.js` lines 2349-2380 dispatch on
exactly these shapes). -/
inductive ExpandEntry where
  | byName : String → ExpandEntry
  | byNamedObject : String → ExpandEntry
  | byMapping : AssociationMapping → ExpandEntry
deriving DecidableEq

/-- JS property access `x.name` on an expand entry: strings and
`DataAssociationMapping` objects have no `name` property (`undefined`), a
named object does (`queryable.js` line 2230). -/
def ExpandEntry.nameProp : ExpandEntry → Option String
  | .byName _ => none
  | .byNamedObject n => some n
  | .byMapping _ => none

/-- Embedding of the `DataQueryable` state (`queryable.js` lines 519-557):
the wrapped query expression, the owning model, the `$expand` entry list, the
`$flatten` flag (three JS states), `$levels` and `$asArray`. Models carrying
named data views are outside this development, so the `$view` slot is always
undefined and is not represented. -/
structure DataQueryable where
  model : DataModel
  query : QueryExpr
  expandList : Option (List ExpandEntry) := none
  flattenFlag : Option Bool := none
  levelsVal : Option Int := none
  asArrayFlag : Bool := false

/-- A fresh queryable over a model (`new DataQueryable(model)`): the query is
`qry.query(model.viewAdapter)` and every flag is undefined. -/
def DataQueryable.mk0 (m : DataModel) : DataQueryable :=
  { model := m, query := { entity := m.viewAdapter } }

/-- Embedding of `DataQueryable.prototype.getLevels` (`queryable.js` lines
3168-3173). -/
def DataQueryable.getLevels (s : DataQueryable) : Int := s.levelsVal.getD 1

/-- Embedding of `DataQueryable.prototype.skip` (`queryable.js` lines
1690-1693). -/
def DataQueryable.skip (s : DataQueryable) (n : Nat) : DataQueryable :=
  { s with query := { s.query with skipN := some n } }

/-- Embedding of the chaining form of `DataQueryable.prototype.take`
(`queryable.js` lines 1719-1727, `this.query.take(n)`). -/
def DataQueryable.takeQ (s : DataQueryable) (n : Nat) : DataQueryable :=
  { s with query := { s.query with takeN := some n } }

/-- Embedding of the single-argument push path of
`DataQueryable.prototype.expand` (`queryable.js` lines 2681-2709: a non-array
argument is pushed onto `$expand`, initializing it to `[]` first when it is
not an array). -/
def DataQueryable.expandPush (s : DataQueryable) (e : ExpandEntry) : DataQueryable :=
  { s with expandList := some ((s.expandList.getD []) ++ [e]) }

/-- Embedding of `DataQueryable.prototype.expand` called with no argument
(`queryable.js` lines 2684-2686: deletes the expand list). -/
def DataQueryable.expandClear (s : DataQueryable) : DataQueryable :=
  { s with expandList := none }

/-- Embedding of `DataQueryable.prototype.flatten` (`queryable.js` lines
2733-2747): a truthy or missing argument deletes `$expand` and sets
`$flatten`; a falsy argument deletes `$flatten`; a set `$flatten` then forces
`$levels` to 0. -/
def DataQueryable.flatten (s : DataQueryable) (value : Option Bool := none) : DataQueryable :=
  let s1 :=
    if value != some false then
      { s with expandList := none, flattenFlag := some true }
    else
      { s with flattenFlag := none }
  if s1.flattenFlag == some true then { s1 with levelsVal := some 0 } else s1

/-- Embedding of `DataQueryable.prototype.levels` (`queryable.js` lines
3147-3162): `$levels` becomes 1 when the argument is missing, else the given
number; `$flatten` is then assigned the boolean `$levels < 1`. -/
def DataQueryable.levels (s : DataQueryable) (value : Option Int) : DataQueryable :=
  let lv : Int := match value with | none => 1 | some n => n
  { s with levelsVal := some lv, flattenFlag := some (lv < 1) }

/-- Embedding of `DataQueryable.prototype.clone` (`queryable.js` lines
562-577): copies `$silent`, `$levels`, `$flatten`, `$expand` and the query;
`$asArray` is not copied and so resets to its undefined (false) state. -/
def DataQueryable.clone (s : DataQueryable) : DataQueryable :=
  { model := s.model, query := s.query, expandList := s.expandList,
    flattenFlag := s.flattenFlag, levelsVal := s.levelsVal, asArrayFlag := false }

/-! ## Attribute resolver (`DataAttributeResolver`) -/

/-- Helper for `jsSplitSlash`: splits a character list on `/`, carrying the
reversed current segment. -/
def splitSlashAux : List Char → List Char → List String
  | [], acc => [String.mk acc.reverse]
  | c :: cs, acc =>
    if c == '/' then String.mk acc.reverse :: splitSlashAux cs []
    else splitSlashAux cs (c :: acc)

/-- Embedding of the JS `memberExpr.split('/')` used throughout the attribute
resolver. -/
def jsSplitSlash (s : String) : List String := splitSlashAux s.data []

/-- Result of `resolveNestedAttributeJoin`: a single join expression, or the
two-element array built for paths of three segments on the child side
(`queryable.js` lines 204-212; the recursive call at line 206 always receives
a two-segment path, so it always contributes a single join). -/
inductive JoinRet where
  | one : JoinExpr → JoinRet
  | two : JoinExpr → JoinExpr → JoinRet
deriving DecidableEq

/-- First hop of `DataAttributeResolver.prototype.resolveNestedAttributeJoin`
(`queryable.js` lines 173-235): attribute lookup, mapping inference, and the
join built for the first path segment `a` on either side of an `association`
mapping. On the child side (lines 182-212) the result also carries the parent
model, into which a deeper path recurses; on the parent side (lines 214-232)
it carries no further model, as that branch never recurses. The `alias?`
argument is the `_alias` override installed on the parent model by the
recursive call at line 205 (`self._alias || self.viewAdapter`, line 201). -/
def resolveJoinHead (ctx : DataContext) (self : DataModel) (alias? : Option String)
    (a : String) : Except String (JoinExpr × AssociationMapping × Option DataModel) :=
  match self.field a with
  | none => .error "The target model does not have an attribute named as the first path segment"
  | some _attrMember =>
    match self.inferMapping ctx a with
    | none => .error "The target model does not have an association defined for the attribute"
    | some mapping =>
      if mapping.childModel == self.name && mapping.associationType == "association" then
        match ctx.model mapping.parentModel with
        | none => .error "Association parent model cannot be found."
        | some parentModel =>
          match self.field mapping.childField with
          | none => .error "Association field cannot be found."
          | some childField =>
            match parentModel.field mapping.parentField with
            | none => .error "Referenced field cannot be found."
            | some _parentField =>
              .ok ({ entity := parentModel.viewAdapter
                     asName := mapping.childField
                     leftJoin := true
                     onLeft := { field := childField.name,
                                 entity := alias?.getD self.viewAdapter }
                     onRight := { field := mapping.parentField,
                                  entity := mapping.childField } },
                   mapping, some parentModel)
      else if mapping.parentModel == self.name && mapping.associationType == "association" then
        match ctx.model mapping.childModel with
        | none => .error "Association child model cannot be found."
        | some childModel =>
          match childModel.field mapping.childField with
          | none => .error "Association field cannot be found."
          | some childField =>
            match self.field mapping.parentField with
            | none => .error "Referenced field cannot be found."
            | some parentField =>
              .ok ({ entity := childModel.viewAdapter
                     asName := a
                     leftJoin := true
                     onLeft := { field := parentField.name, entity := self.viewAdapter }
                     onRight := { field := childField.name, entity := a } },
                   mapping, none)
      else
        .error "The association type between the two models is not supported for filtering, grouping or sorting data."

/-- Embedding of `resolveNestedAttributeJoin` on the path segments. For a
two-segment path both sides contribute the single first-hop join. For a
deeper path on the child side, the source recurses at line 206 into the
parent model with the two-segment path `arrMember[1] + '/' + arrMember[2]`
and the `_alias` override `mapping.childField`; that recursive call reduces
to the first hop of its own first segment, so it is embedded as such here
(the recursion bottoms out after exactly one step). The parent-side branch
returns its single join regardless of extra segments (line 231). -/
def resolveJoinSegments (ctx : DataContext) (self : DataModel) (alias? : Option String) :
    List String → Except String JoinRet
  | a :: b :: rest =>
    match resolveJoinHead ctx self alias? a with
    | .error e => .error e
    | .ok (j, mapping, pm?) =>
      match rest, pm? with
      | [], _ => .ok (.one j)
      | _ :: _, some parentModel =>
        match resolveJoinHead ctx parentModel (some mapping.childField) b with
        | .error e => .error e
        | .ok (j2, _, _) => .ok (.two j j2)
      | _ :: _, none => .ok (.one j)
  | _ =>
    -- memberExpr has no separator: the JS function returns undefined, which
    -- the caller at line 157 turns into this error.
    .error "Member join expression cannot be empty at this context"

/-- Embedding of `resolveNestedAttributeJoin` on the raw member expression. -/
def resolveNestedAttributeJoin (ctx : DataContext) (self : DataModel)
    (memberExpr : String) : Except String JoinRet :=
  resolveJoinSegments ctx self none (jsSplitSlash memberExpr)

/-- Merge of a freshly built join expression into the query's `$expand` slot
with de-duplication by join-entity alias (`queryable.js` lines 128-153): an
undefined slot receives the expression as-is; otherwise both sides are
normalized to arrays and each new join is appended only when no join with the
same (truthy) alias is already present. -/
def mergeExpandJoins (slot : ExpandSlot) (jr : JoinRet) : ExpandSlot :=
  let exprList : List JoinExpr := match jr with | .one j => [j] | .two j1 j2 => [j1, j2]
  match slot with
  | .undef =>
    match jr with
    | .one j => .single j
    | .two j1 j2 => .list [j1, j2]
  | .single j0 =>
    .list (exprList.foldl
      (fun acc y =>
        if acc.any (fun x => x.asName != "" && x.asName == y.asName) then acc
        else acc ++ [y]) [j0])
  | .list js =>
    .list (exprList.foldl
      (fun acc y =>
        if acc.any (fun x => x.asName != "" && x.asName == y.asName) then acc
        else acc ++ [y]) js)

/-- Embedding of `DataAttributeResolver.prototype.resolveNestedAttribute`
(`queryable.js` lines 106-160), the shared resolver behind `where` (line
629), `orderBy`/`thenBy`/`groupBy` and `select_`: infers the mapping of the
first segment, synthesizes the join(s), merges them into the query's
`$expand` slot and returns the select field reference. Junction mappings are
routed to `resolveJunctionAttributeJoin` (lines 392-508), which none of the
verified claims exercises; that branch is reported as an error here. -/
def resolveNestedAttribute (ctx : DataContext) (s : DataQueryable) (attr : String) :
    Except String (DataQueryable × QField) :=
  let member := jsSplitSlash attr
  if member.length < 2 then
    .error "resolveNestedAttribute requires a nested attribute (callers guard on the separator)"
  else
    match s.model.inferMapping ctx (member.headD "") with
    | some mp =>
      if mp.associationType == "junction" then
        .error "junction attribute resolution (resolveJunctionAttributeJoin) is outside this development"
      else
        match resolveNestedAttributeJoin ctx s.model attr with
        | .error e => .error e
        | .ok jr =>
          let select : QField :=
            match member with
            | _a :: b :: c :: _ => QField.fromEnt c b
            | a :: b :: _ => QField.fromEnt b a
            | _ => QField.plain ""
          .ok ({ s with query := { s.query with
                   expandJoins := mergeExpandJoins s.query.expandJoins jr } }, select)
    | none =>
      match resolveNestedAttributeJoin ctx s.model attr with
      | .error e => .error e
      | .ok jr =>
        let select : QField :=
          match member with
          | _a :: b :: c :: _ => QField.fromEnt c b
          | a :: b :: _ => QField.fromEnt b a
          | _ => QField.plain ""
        .ok ({ s with query := { s.query with
                 expandJoins := mergeExpandJoins s.query.expandJoins jr } }, select)

/-! ## Projection building (`DataQueryable.prototype.select` and friends) -/

/-- Embedding of `DataQueryable.prototype.fieldOf` (`queryable.js` lines
1383-1477) for plain attribute names. The aggregate and alias regex branches
at lines 1389-1463 do not match a bare name (no parentheses, no alias
keyword, no separator), so a plain name reaches the final branch at lines
1464-1472: field lookup, then `select(field.name).from(viewAdapter)`,
aliased by the field's property when one is declared. This development only
passes plain names here. -/
def DataQueryable.fieldOf (s : DataQueryable) (attr : String) : Except String QField :=
  match s.model.field attr with
  | none => .error "The specified field cannot be found in target model."
  | some field =>
    let f := QField.fromEnt field.name s.model.viewAdapter
    match field.property with
    | some p => .ok (.aliased f p)
    | none => .ok f

/-- The projection item that `fieldOf` builds for a plain model attribute
(`queryable.js` lines 1469-1472): the field drawn from the view adapter,
aliased by its property when one is declared. -/
def fieldItemOf (va : String) (y : DataField) : QField :=
  match y.property with
  | some p => QField.aliased (QField.fromEnt y.name va) p
  | none => QField.fromEnt y.name va

/-- The many-or-junction test of `select` (`queryable.js` lines 1209 and
1293): `field.many || (field.mapping && field.mapping.associationType ===
'junction')`. -/
def DataField.routesToExpand (f : DataField) : Bool :=
  f.jsMany || (match f.mapping with
               | some mp => mp.associationType == "junction"
               | none => false)

/-- Embedding of the array branch of `DataQueryable.prototype.select`
(`queryable.js` lines 1279-1331) for lists of plain attribute names of the
model, so the expression fallback `select_` at line 1300 is not entered and
the single-element data-view check at lines 1284-1288 never fires (models
without data views). A field that is `many` or junction-mapped is routed to
`expand(field.name)` (lines 1293-1294); every other field is appended to the
projection as `fieldOf(field.name)` (line 1296); the collected list is then
installed with `query.select(arr)` (line 1330); the per-name loop is the
recursive helper below. -/
def selectManyLoop (st : DataQueryable) (arr : List QField) :
    List String → Except String (DataQueryable × List QField)
  | [] => .ok (st, arr)
  | x :: rest =>
    match st.model.field x with
    | some field =>
      if field.routesToExpand then
        selectManyLoop (st.expandPush (.byName field.name)) arr rest
      else
        match st.fieldOf field.name with
        | .error e => .error e
        | .ok f => selectManyLoop st (arr ++ [f]) rest
    | none =>
      .error "attribute expressions beyond plain model fields are outside this development"

/-- The array branch of `select` assembled from the loop: the collected
projection is installed with `query.select(arr)` (line 1330). -/
def DataQueryable.selectMany (s : DataQueryable) (names : List String) :
    Except String DataQueryable :=
  match selectManyLoop s [] names with
  | .error e => .error e
  | .ok (s1, arr) => .ok { s1 with query := { s1.query with selectFields := some arr } }

/-- Embedding of `select('*')` (`queryable.js` lines 1200-1204): deletes the
projection and returns the builder. -/
def DataQueryable.selectStar (s : DataQueryable) : DataQueryable :=
  { s with query := { s.query with selectFields := none } }

/-- Attribute enumeration of the no-argument `select()` call (`queryable.js`
lines 1318-1322): attributes whose `many` is false or undefined, plus
expandable attributes while the current levels are positive; each mapped to
`property || name`. -/
def DataQueryable.defaultFieldNames (s : DataQueryable) : List String :=
  (s.model.attributes.filter (fun x =>
      x.many == some false || x.many == none || (x.expandable && s.getLevels > 0))).map
    (fun x => x.property.getD x.name)

/-- Embedding of the no-argument `select()` call (`queryable.js` lines
1194-1199 with an undefined argument, falling through to lines 1315-1327):
with a projection already present nothing happens; otherwise the default
attribute names are enumerated and re-selected. -/
def DataQueryable.selectNone (s : DataQueryable) : Except String DataQueryable :=
  if s.query.hasFields then .ok s
  else s.selectMany s.defaultFieldNames

/-- Embedding of the single-string branch of `select` for a plain attribute
name other than `*` (`queryable.js` lines 1206-1216 and 1274-1331): a
many/junction field is routed to `expand`, leaving the projection list
undefined so the call falls into the default-enumeration branch at lines
1315-1327; any other field becomes the one-element projection. -/
def DataQueryable.selectOne (s : DataQueryable) (arg : String) :
    Except String DataQueryable :=
  match s.model.field arg with
  | some field =>
    if field.routesToExpand then
      let s1 := s.expandPush (.byName field.name)
      if s1.query.hasFields then .ok s1 else s1.selectMany s1.defaultFieldNames
    else
      match s.fieldOf field.name with
      | .error e => .error e
      | .ok f => .ok { s with query := { s.query with selectFields := some [f] } }
  | none =>
    .error "data views and attribute expressions are outside this development (lines 1218-1272)"

/-! ## Execution pipeline -/

/-- A terminal-operation result item: a row object, or a scalar produced by
the asArray collapse. -/
inductive ResultItem where
  | obj : Option Row → ResultItem
  | scalar : JValue → ResultItem
deriving DecidableEq

/-- A raw adapter (or hook-supplied) result: a list of rows. -/
abbrev RawResult := List (Option Row)

/-- A processed terminal-operation result. -/
abbrev ExecResult := List ResultItem

/-- The execution environment abstracting the engine's external
collaborators (spec sections 1 and 6): `table` holds the rows matching the
query's filter in adapter order and already shaped by the projection;
`beforeHook` is the outcome of the `before.execute` hook chain (an error, or
a short-circuit result, or neither); `afterListenerCount` and `afterHookErr`
describe the `after.execute` chain; `attach` is the per-row attachment
performed by the external `mapping-extensions` module for one association
(row counts are never changed by attachment). -/
structure ExecEnv where
  table : RawResult
  beforeHook : Except String (Option RawResult) := .ok none
  afterListenerCount : Nat := 0
  afterHookErr : Option String := none
  attach : AssociationMapping → Option Row → Option Row := fun _ r => r

/-- Modelled adapter execution `db.execute(query, null, cb)` (`queryable.js`
line 2310): a query whose projection is a single count field returns the one
aggregate row keyed by the counted field's name; any other select applies
`$skip`/`$take` paging to the table. Ordering and grouping do not change the
row multiset and are not modelled. -/
def dbExecute (env : ExecEnv) (q : QueryExpr) : RawResult :=
  match q.selectFields with
  | some [QField.count n _] => [some [(n, JValue.vInt (env.table.length : Int))]]
  | _ =>
    let rows := env.table.drop (q.skipN.getD 0)
    match q.takeN with
    | some t => rows.take t
    | none => rows

/-- Embedding of `toArrayCallback` (`queryable.js` lines 2490-2523): with the
asArray flag set and exactly one projected field, each non-nil row whose
first key holds a truthy value contributes that value (`if (x[key])
arr.push(x[key])`, lines 2503-2509); otherwise the rows pass through
unchanged. The guards at lines 2494-2500 (`query` undefined, `fields()` not
an array) cannot fire in this embedding. -/
def toArrayCallbackFn (s : DataQueryable) (result : RawResult) : ExecResult :=
  if s.asArrayFlag then
    if s.query.fields.length == 1 then
      result.foldl
        (fun acc x? =>
          match x? with
          | none => acc
          | some x =>
            match x.head? with
            | none => acc
            | some kv => if kv.2.truthy then acc ++ [ResultItem.scalar kv.2] else acc)
        []
    else result.map ResultItem.obj
  else result.map ResultItem.obj

/-- The duplicate-mapping predicate of `afterExecute_` (`queryable.js` lines
2386-2391): `x.parentField === mapping.parentField && ...`; only
mapping-shaped entries can match, a string entry has none of these
properties. -/
def entryMatchesMapping (m : AssociationMapping) : ExpandEntry → Bool
  | .byMapping mm =>
    mm.parentField == m.parentField && mm.parentModel == m.parentModel
      && mm.childField == m.childField && mm.childModel == m.childModel
  | _ => false

/-- Orientation dispatch of `afterExecute_` (`queryable.js` lines 2425-2465):
each supported orientation hands the rows to the corresponding
`mapping-extensions` helper (`getAssociatedChilds_v1`, `getParents_v1`,
`getChilds_v1`, `getAssociatedParents_v1`), abstracted by the environment's
per-row `attach`; any other association type fails with the source's
"Not yet implemented" error. When neither side of the mapping names the
current model the source invokes no continuation at all and the operation
never completes; that dead branch is reported as an error here. -/
def attachByOrientation (env : ExecEnv) (s : DataQueryable) (m : AssociationMapping)
    (rows : RawResult) : Except String RawResult :=
  if m.associationType == "association" || m.associationType == "junction" then
    if m.parentModel == s.model.name && m.associationType == "association" then
      .ok (rows.map (env.attach m))
    else if m.childModel == s.model.name && m.associationType == "junction" then
      .ok (rows.map (env.attach m))
    else if m.parentModel == s.model.name && m.associationType == "junction" then
      .ok (rows.map (env.attach m))
    else if m.childModel == s.model.name && m.associationType == "association" then
      .ok (rows.map (env.attach m))
    else
      .error "no orientation matched: the source invokes no continuation here"
  else .error "Not yet implemented"

/-- Processing of one expand entry inside `afterExecute_` (`queryable.js`
lines 2341-2470). A mapping-shaped entry goes straight to the orientation
dispatch (its `select`/`options` merging at lines 2349-2360 only shapes the
nested sub-query, which the `attach` abstraction already covers). A named
entry resolves its field by name, then by type (lines 2381-2383); with the
field found, the mapping is inferred and the duplicate check at lines
2386-2391 runs — dereferencing `mapping.parentField` before the null guard
at line 2394, so an uninferable mapping raises a TypeError that the
surrounding try/catch routes to the series callback; a duplicate entry is
skipped (line 2392). With no field found the mapping stays null and the
entry is logged and skipped (lines 2467-2469). -/
def processExpandEntry (env : ExecEnv) (ctx : DataContext) (s : DataQueryable)
    (expands : List ExpandEntry) (rows : RawResult) (entry : ExpandEntry) :
    Except String RawResult :=
  match entry with
  | .byMapping m => attachByOrientation env s m rows
  | e =>
    let expandAttr := match e with
      | .byName n => n
      | .byNamedObject n => n
      | .byMapping _ => ""
    let field :=
      match s.model.field expandAttr with
      | some f => some f
      | none => s.model.attributes.find? (fun x => x.ftype == expandAttr)
    match field with
    | some f =>
      match s.model.inferMapping ctx f.name with
      | none => .error "TypeError: cannot read property parentField of null"
      | some m =>
        if (expands.find? (entryMatchesMapping m)).isSome then .ok rows
        else attachByOrientation env s m rows
    | none => .ok rows

/-- Embedding of `afterExecute_` (`queryable.js` lines 2332-2483): with an
expand list present, its distinct entries (line 2340) are processed in
series over the result rows, then the asArray collapse runs; without one the
collapse runs directly. -/
def afterExecuteFn (env : ExecEnv) (ctx : DataContext) (s : DataQueryable)
    (result : RawResult) : Except String ExecResult :=
  match s.expandList with
  | some entries =>
    let expands := entries.eraseDups
    match expands.foldlM (processExpandEntry env ctx s expands) result with
    | .error e => .error e
    | .ok rows => .ok (toArrayCallbackFn s rows)
  | none => .ok (toArrayCallbackFn s result)

/-- The processing a raw result receives after the `before.execute` stage of
`finalExecuteInternal_` (`queryable.js` lines 2299-2321, identical in both
branches): `afterExecute_`, then — only when `after.execute` listeners exist
— the `after.execute` emission, whose failure becomes the operation's
failure. -/
def downstream (env : ExecEnv) (ctx : DataContext) (s : DataQueryable)
    (raw : RawResult) : Except String ExecResult :=
  match afterExecuteFn env ctx s raw with
  | .error e => .error e
  | .ok res =>
    if env.afterListenerCount == 0 then .ok res
    else
      match env.afterHookErr with
      | some e => .error e
      | none => .ok res

/-- Outcome of a dispatch through `finalExecuteInternal_`, recording whether
the adapter's `db.execute` was invoked. -/
structure ExecOutcome where
  outcome : Except String ExecResult
  dbCalled : Bool

/-- Embedding of `finalExecuteInternal_` (`queryable.js` lines 2285-2325):
the `before.execute` hook chain runs first; its error aborts the operation
(line 2291); a `result` set on the event short-circuits the adapter and is
processed like an adapter result (lines 2296-2309); otherwise `db.execute`
runs and its rows are processed the same way (lines 2310-2322). -/
def finalExecuteInternal (env : ExecEnv) (ctx : DataContext) (s : DataQueryable) :
    ExecOutcome :=
  match env.beforeHook with
  | .error err => { outcome := .error err, dbCalled := false }
  | .ok (some r) =>
    { outcome :=
        match afterExecuteFn env ctx s r with
        | .error e => .error e
        | .ok res =>
          if env.afterListenerCount == 0 then .ok res
          else
            match env.afterHookErr with
            | some e => .error e
            | none => .ok res,
      dbCalled := false }
  | .ok none =>
    { outcome :=
        match afterExecuteFn env ctx s (dbExecute env s.query) with
        | .error e => .error e
        | .ok res =>
          if env.afterListenerCount == 0 then .ok res
          else
            match env.afterHookErr with
            | some e => .error e
            | none => .ok res,
      dbCalled := true }

/-- Expandable-projection step of `execute_` (`queryable.js` lines
2194-2241), entered only when the queryable is not flattened: hidden
attributes are spliced out of the projection (lines 2202-2215); then every
projected field that is expandable gets its inferred mapping pushed onto the
expand list unless an entry named after it is already there (lines
2217-2239). Every execution path installs a projection before reaching this
step, so an undefined `$select` (which would throw in the source at line
2199) passes through unchanged. -/
def expandResolutionStep (ctx : DataContext) (s : DataQueryable) : DataQueryable :=
  let expandables := s.model.attributes.filter (fun x => x.expandable)
  match s.query.selectFields with
  | none => s
  | some selected =>
    let hiddens := s.model.attributes.filter (fun x => x.hidden)
    let selected1 :=
      if hiddens.length > 0 then
        selected.filter (fun x => (hiddens.find? (fun y => x.nameOf == y.name)).isNone)
      else selected
    let s1 := { s with query := { s.query with selectFields := some selected1 } }
    if expandables.length > 0 then
      selected1.foldl
        (fun acc x =>
          match expandables.find? (fun y => x.nameOf == y.name) with
          | some field =>
            match acc.model.inferMapping ctx field.name with
            | some mp =>
              let cur := acc.expandList.getD []
              let acc1 := { acc with expandList := some cur }
              if (cur.find? (fun e => e.nameProp == some field.name)).isSome then acc1
              else acc1.expandPush (.byMapping mp)
            | none => acc
          | none => acc)
        s1
    else s1

/-- Embedding of `execute_` (`queryable.js` lines 2189-2278): the migration
check delegates to the external adapter and is modelled as already
satisfied; the expandable-projection step runs unless `$flatten` is set or
the levels are 0 (line 2194); models without data views skip the view merge
(lines 2244-2272); then `finalExecuteInternal_` dispatches. -/
def executeQ (env : ExecEnv) (ctx : DataContext) (s : DataQueryable) : ExecOutcome :=
  let flat := s.flattenFlag == some true || s.getLevels == 0
  let s1 := if flat then s else expandResolutionStep ctx s
  finalExecuteInternal env ctx s1

/-! ## Terminal operations -/

/-- Embedding of `takeInternal` (`queryable.js` lines 1701-1711):
`query.take(n)`, the projection ensured, then execution. -/
def takeInternal (env : ExecEnv) (ctx : DataContext) (s : DataQueryable) (n : Nat) :
    Except String ExecResult :=
  match (s.takeQ n).selectNone with
  | .error e => .error e
  | .ok s2 => (executeQ env ctx s2).outcome

/-- Embedding of `firstInternal` (`queryable.js` lines 1621-1635):
`skip(0).take(1, ...)`, resolving with the first item of a non-empty result
and with `undefined` otherwise. -/
def firstInternal (env : ExecEnv) (ctx : DataContext) (s : DataQueryable) :
    Except String (Option ResultItem) :=
  match takeInternal env ctx (s.skip 0) 1 with
  | .error e => .error e
  | .ok (r :: _) => .ok (some r)
  | .ok [] => .ok none

/-- The query rewrite of `countInternal` (`queryable.js` lines 1950-1956):
`$skip`, `$take`, `$order` and `$group` deleted and the projection replaced
by `count(field.name).from(viewAdapter)` over the model's first attribute. -/
def countQuery (s : DataQueryable) (field : DataField) : QueryExpr :=
  { s.query with
    skipN := none
    takeN := none
    orderList := none
    groupList := none
    selectFields := some [QField.count field.name s.model.viewAdapter] }

/-- Embedding of `countInternal` (`queryable.js` lines 1943-1968): a model
without attributes fails; otherwise the rewritten count query executes and
the value is `result[0][field.name]` of a non-empty result and null
otherwise. A null first row would throw in the source (`result[0][...]`);
property access on a collapsed scalar yields `undefined`. -/
def countInternal (env : ExecEnv) (ctx : DataContext) (s : DataQueryable) :
    Except String (Option JValue) :=
  match s.model.attributes.head? with
  | none => .error "Queryable collection does not have any property."
  | some field =>
    let s1 := { s with query := countQuery s field }
    match (executeQ env ctx s1).outcome with
    | .error e => .error e
    | .ok result =>
      match result with
      | [] => .ok none
      | .obj (some row) :: _ => .ok (row.lookup field.name)
      | .obj none :: _ => .error "TypeError: cannot read property of null"
      | .scalar _ :: _ => .ok none

/-- The JS take defaulting `self.query.$take || 25` (`queryable.js` line
1840): a missing or zero (falsy) `$take` becomes 25. -/
def jsTakeOr25 (t? : Option Nat) : Nat :=
  match t? with
  | some t => if t == 0 then 25 else t
  | none => 25

/-- A paged result set (`queryable.js` line 1859). -/
structure ResultSet where
  total : Option JValue
  skip : Nat
  records : ExecResult
deriving DecidableEq

/-- Embedding of `listInternal` (`queryable.js` lines 1835-1869): the take
defaults through `self.query.$take || 25`, the projection is ensured, the
queryable is cloned, the page is fetched with the requested take, the clone
is counted, and the result set carries `total`, `parseInt($skip) || 0` and
the records. -/
def listInternal (env : ExecEnv) (ctx : DataContext) (s : DataQueryable) :
    Except String ResultSet :=
  let take := jsTakeOr25 s.query.takeN
  match s.selectNone with
  | .error e => .error e
  | .ok s0 =>
    match takeInternal env ctx s0 take with
    | .error e => .error e
    | .ok records =>
      match countInternal env ctx s0.clone with
      | .error e => .error e
      | .ok total =>
        .ok { total := total, skip := s0.query.skipN.getD 0, records := records }

/-- Embedding of `valueInternal` (`queryable.js` lines 3086-3097): with no
projection the model's primary key is selected; the first matching row's
first enumerable property supplies the value; a missing row or key resolves
with `undefined`. -/
def valueInternal (env : ExecEnv) (ctx : DataContext) (s : DataQueryable) :
    Except String (Option JValue) :=
  match (if s.query.selectFields == none then s.selectOne s.model.primaryKey else .ok s) with
  | .error e => .error e
  | .ok s1 =>
    match firstInternal env ctx s1 with
    | .error e => .error e
    | .ok none => .ok none
    | .ok (some (.obj none)) => .ok none
    | .ok (some (.obj (some row))) =>
      match row.head? with
      | none => .ok none
      | some kv => .ok (some kv.2)
    | .ok (some (.scalar _)) => .ok none

/-! ## Concrete fixtures

Small model configurations used by counterexamples and witnesses. -/

/-- A minimal parent model with a plain text attribute. -/
def fixPerson : DataModel :=
  { name := "Person", viewAdapter := "PersonData", primaryKey := "id",
    attributes :=
      [ { name := "id", ftype := "Counter" },
        { name := "description", ftype := "Text" } ] }

/-- An explicit association mapping whose `childField` (`cid`) differs from
the name of the field carrying it (`customer`). -/
def fixCidMapping : AssociationMapping :=
  { associationType := "association",
    parentModel := "Person", parentField := "id",
    childModel := "Order", childField := "cid" }

/-- The `customer` field carrying `fixCidMapping`. -/
def fixCustomerField : DataField :=
  { name := "customer", ftype := "Person", mapping := some fixCidMapping }

/-- The foreign-key column field named by `fixCidMapping.childField`. -/
def fixCidField : DataField := { name := "cid", ftype := "Integer" }

/-- A child model whose `customer` field carries an explicit association
mapping whose `childField` (`cid`) differs from the field name itself. -/
def fixOrder : DataModel :=
  { name := "Order", viewAdapter := "OrderData", primaryKey := "id",
    attributes :=
      [ { name := "id", ftype := "Counter" },
        fixCustomerField,
        fixCidField ] }

/-- The context holding the order/person pair. -/
def fixCtx : DataContext := { models := [fixOrder, fixPerson] }

/-- A model with a field whose declared type names no model and that is not a
tag collection, so its association mapping cannot be inferred. -/
def fixThing : DataModel :=
  { name := "Thing", viewAdapter := "ThingData", primaryKey := "id",
    attributes :=
      [ { name := "id", ftype := "Counter" },
        { name := "broken", ftype := "Nowhere" } ] }

/-- Context holding only the `Thing` model. -/
def fixThingCtx : DataContext := { models := [fixThing] }

/-- A three-row table for the pipeline witnesses. -/
def fixTable : RawResult :=
  [some [("id", JValue.vInt 1)], some [("id", JValue.vInt 2)], some [("id", JValue.vInt 3)]]

/-- Neutral execution environment over the three-row table. -/
def fixEnv : ExecEnv := { table := fixTable }

/-! ## General lemmas -/

/-- The scalar-collapse loop of `toArrayCallback` collects exactly the truthy
first-key values of the non-nil rows, in order. -/
theorem toArray_fold_eq_filterMap (rows : RawResult) (acc : ExecResult) :
    rows.foldl
      (fun acc x? =>
        match x? with
        | none => acc
        | some x =>
          match x.head? with
          | none => acc
          | some kv => if kv.2.truthy then acc ++ [ResultItem.scalar kv.2] else acc)
      acc
    = acc ++ rows.filterMap (fun x? =>
        x?.bind (fun x => x.head?.bind (fun kv =>
          if kv.2.truthy then some (ResultItem.scalar kv.2) else none))) := by
  induction rows generalizing acc with
  | nil => simp
  | cons h t ih =>
    cases h with
    | none => simpa using ih acc
    | some x =>
      cases hx : x.head? with
      | none => simp [List.foldl_cons, hx, ih]
      | some kv =>
        by_cases hkv : kv.2.truthy <;> simp [List.foldl_cons, hx, hkv, ih]

/-- The collapse never lengthens a result. -/
theorem toArrayCallbackFn_length_le (s : DataQueryable) (rows : RawResult) :
    (toArrayCallbackFn s rows).length ≤ rows.length := by
  unfold toArrayCallbackFn
  split
  · split
    · rw [toArray_fold_eq_filterMap rows []]
      simpa using List.length_filterMap_le _ rows
    · simp
  · simp

/-! ## Claim C4 -/

/-- C4: when a `before.execute` listener sets a `result` on the event, the
adapter's `db.execute` is never invoked and the hook-supplied result feeds
all downstream processing (the afterExecute expansion/collapse and, when
`after.execute` listeners exist, the `after.execute` emission before the
callback); when the `before.execute` chain yields an error, the operation
fails with exactly that error and `db.execute` is not called. -/
theorem C4_before_execute_short_circuit (env : ExecEnv) (ctx : DataContext)
    (s : DataQueryable) :
    (∀ r, env.beforeHook = .ok (some r) →
      finalExecuteInternal env ctx s =
        { outcome := downstream env ctx s r, dbCalled := false }) ∧
    (∀ err, env.beforeHook = .error err →
      finalExecuteInternal env ctx s = { outcome := .error err, dbCalled := false }) := by
  constructor
  · intro r h
    simp [finalExecuteInternal, downstream, h]
  · intro err h
    simp [finalExecuteInternal, h]

/-- Environment whose before-hook chain short-circuits with one row. -/
def fixEnvHookResult : ExecEnv :=
  { table := fixTable, beforeHook := .ok (some [some [("id", JValue.vInt 9)]]) }

/-- Environment whose before-hook chain fails. -/
def fixEnvHookError : ExecEnv :=
  { table := fixTable, beforeHook := .error "before hook failed" }

/-- Witness for C4 at concrete environments. -/
theorem C4_before_execute_short_circuit_witness :
    finalExecuteInternal fixEnvHookResult fixCtx (DataQueryable.mk0 fixPerson) =
      { outcome := downstream fixEnvHookResult fixCtx (DataQueryable.mk0 fixPerson)
          [some [("id", JValue.vInt 9)]],
        dbCalled := false } ∧
    finalExecuteInternal fixEnvHookError fixCtx (DataQueryable.mk0 fixPerson) =
      { outcome := .error "before hook failed", dbCalled := false } :=
  ⟨(C4_before_execute_short_circuit fixEnvHookResult fixCtx (DataQueryable.mk0 fixPerson)).1
      [some [("id", JValue.vInt 9)]] rfl,
   (C4_before_execute_short_circuit fixEnvHookError fixCtx (DataQueryable.mk0 fixPerson)).2
      "before hook failed" rfl⟩

/-! ## Claim C5 -/

/-- Queryable over `Thing` whose expand list names the `broken` field. -/
def fixThingBroken : DataQueryable :=
  { model := fixThing,
    query := { entity := "ThingData", selectFields := some [QField.plain "id"] },
    expandList := some [.byName "broken"], flattenFlag := some true }

/-- Queryable over `Thing` whose expand list names no field at all. -/
def fixThingNoField : DataQueryable :=
  { model := fixThing,
    query := { entity := "ThingData", selectFields := some [QField.plain "id"] },
    expandList := some [.byName "nosuch"], flattenFlag := some true }

/-- C5: the claim asserts that an expand entry whose association mapping
cannot be inferred is logged and skipped without error. On the code, with
the field `broken` present on the model but `inferMapping` yielding null,
the duplicate-entry check of `afterExecute_` dereferences
`mapping.parentField` before the null guard, so the whole operation aborts
with a TypeError; only an entry whose field cannot be found at all is
logged and skipped softly. -/
theorem C5_uninferable_mapping_hard_fails :
    DataModel.inferMapping fixThingCtx fixThing "broken" = none ∧
    afterExecuteFn { table := [] } fixThingCtx fixThingBroken [some [("id", JValue.vInt 1)]]
      = .error "TypeError: cannot read property parentField of null" ∧
    afterExecuteFn { table := [] } fixThingCtx fixThingNoField [some [("id", JValue.vInt 1)]]
      = .ok [ResultItem.obj (some [("id", JValue.vInt 1)])] :=
  ⟨rfl, rfl, rfl⟩

/-! ## Claim C6 -/

/-- C6 (amended): `flatten(true)` (or `flatten()` with no argument) deletes
the expand list and forces the reported levels to 0, which persists until
`levels` is explicitly called again; `levels(n)` with `n < 1` sets the
`$flatten` flag like `flatten(true)` does but, unlike `flatten(true)`,
leaves the expand list unchanged and reports levels `n`. -/
theorem C6_flatten_levels (s : DataQueryable) (v : Option Bool) (hv : v ≠ some false)
    (n m : Int) (hn : n < 1) :
    (s.flatten v).expandList = none ∧
    (s.flatten v).getLevels = 0 ∧
    ((s.flatten v).levels (some m)).getLevels = m ∧
    (s.levels (some n)).flattenFlag = some true ∧
    (s.levels (some n)).expandList = s.expandList ∧
    (s.levels (some n)).getLevels = n := by
  refine ⟨?_, ?_, ?_, ?_, ?_, ?_⟩ <;>
    simp [DataQueryable.flatten, DataQueryable.levels, DataQueryable.getLevels, hv, hn]

/-- Witness for C6 at a concrete queryable. -/
theorem C6_flatten_levels_witness :
    ((DataQueryable.mk0 fixPerson).flatten (some true)).expandList = none ∧
    ((DataQueryable.mk0 fixPerson).flatten (some true)).getLevels = 0 ∧
    (((DataQueryable.mk0 fixPerson).flatten (some true)).levels (some 2)).getLevels = 2 ∧
    ((DataQueryable.mk0 fixPerson).levels (some 0)).flattenFlag = some true ∧
    ((DataQueryable.mk0 fixPerson).levels (some 0)).expandList
      = (DataQueryable.mk0 fixPerson).expandList ∧
    ((DataQueryable.mk0 fixPerson).levels (some 0)).getLevels = 0 :=
  C6_flatten_levels (DataQueryable.mk0 fixPerson) (some true) (by decide) 0 2 (by decide)

/-- Queryable with an expand entry present, for the C6 counterexample. -/
def fixC6State : DataQueryable :=
  { model := fixPerson, query := { entity := "PersonData" },
    expandList := some [.byName "x"] }

/-- C6 counterexample: with an expand entry present, `levels(0)` is not
equivalent to `flatten(true)` — the expand list survives `levels(0)` but is
deleted by `flatten(true)`. -/
theorem C6_levels_vs_flatten_counterexample :
    (fixC6State.levels (some 0)).expandList = some [ExpandEntry.byName "x"] ∧
    (fixC6State.flatten (some true)).expandList = none :=
  ⟨rfl, rfl⟩

/-! ## Claim C7 -/

/-- C7 (amended): with the asArray flag set and exactly one projected field,
each non-nil row whose first key holds a truthy value is mapped to that
scalar and every other row is dropped, so the collapsed sequence is the
in-order list of those truthy values and never longer than the raw rows;
with any other number of fields the rows are returned unchanged. -/
theorem C7_asarray_collapse (s : DataQueryable) (result : RawResult)
    (ha : s.asArrayFlag = true) :
    (s.query.fields.length = 1 →
      toArrayCallbackFn s result
        = result.filterMap (fun x? =>
            x?.bind (fun x => x.head?.bind (fun kv =>
              if kv.2.truthy then some (ResultItem.scalar kv.2) else none))) ∧
      (toArrayCallbackFn s result).length ≤ result.length) ∧
    (¬ s.query.fields.length = 1 →
      toArrayCallbackFn s result = result.map ResultItem.obj) := by
  constructor
  · intro h1
    constructor
    · unfold toArrayCallbackFn
      rw [if_pos ha, if_pos (by simpa using h1)]
      simpa using toArray_fold_eq_filterMap result []
    · exact toArrayCallbackFn_length_le s result
  · intro h1
    unfold toArrayCallbackFn
    rw [if_pos ha, if_neg (by simpa using h1)]

/-- Queryable with the asArray flag and a single projected field. -/
def fixC7State : DataQueryable :=
  { model := fixPerson,
    query := { entity := "PersonData", selectFields := some [QField.plain "a"] },
    asArrayFlag := true }

/-- Rows whose second entry holds the falsy scalar 0. -/
def fixC7Rows : RawResult := [some [("a", JValue.vInt 1)], some [("a", JValue.vInt 0)]]

/-- Witness for C7 at the concrete collapse input. -/
theorem C7_asarray_collapse_witness :
    toArrayCallbackFn fixC7State fixC7Rows
      = fixC7Rows.filterMap (fun x? =>
          x?.bind (fun x => x.head?.bind (fun kv =>
            if kv.2.truthy then some (ResultItem.scalar kv.2) else none))) ∧
    (toArrayCallbackFn fixC7State fixC7Rows).length ≤ fixC7Rows.length :=
  (C7_asarray_collapse fixC7State fixC7Rows rfl).1 (by decide)

/-- C7 counterexample: the row holding the falsy scalar 0 is dropped by the
collapse, so the scalar sequence is strictly shorter than the raw rows,
refuting the claimed equal length. -/
theorem C7_collapse_length_counterexample :
    toArrayCallbackFn fixC7State fixC7Rows = [ResultItem.scalar (JValue.vInt 1)] ∧
    (toArrayCallbackFn fixC7State fixC7Rows).length ≠ fixC7Rows.length :=
  ⟨rfl, by decide⟩

/-! ## Claim C1 -/

/-- First-hop join on the child side of an association mapping. -/
theorem resolveJoinHead_child (ctx : DataContext) (self : DataModel) (alias? : Option String)
    (a : String) (fa : DataField) (m : AssociationMapping) (pm : DataModel)
    (cf pf : DataField)
    (hfa : self.field a = some fa)
    (hm : self.inferMapping ctx a = some m)
    (hassoc : m.associationType = "association")
    (hchild : m.childModel = self.name)
    (hpm : ctx.model m.parentModel = some pm)
    (hcf : self.field m.childField = some cf)
    (hpf : pm.field m.parentField = some pf) :
    resolveJoinHead ctx self alias? a =
      .ok ({ entity := pm.viewAdapter, asName := m.childField, leftJoin := true,
             onLeft := { field := cf.name, entity := alias?.getD self.viewAdapter },
             onRight := { field := m.parentField, entity := m.childField } },
           m, some pm) := by
  unfold resolveJoinHead
  simp only [hfa, hm, hpm, hcf, hpf, hchild, hassoc, beq_self_eq_true, Bool.and_self,
    if_true]

/-- First-hop join on the parent side of an association mapping. -/
theorem resolveJoinHead_parent (ctx : DataContext) (self : DataModel) (alias? : Option String)
    (a : String) (fa : DataField) (m : AssociationMapping) (cm : DataModel)
    (cf pf : DataField)
    (hfa : self.field a = some fa)
    (hm : self.inferMapping ctx a = some m)
    (hassoc : m.associationType = "association")
    (hnchild : m.childModel ≠ self.name)
    (hparent : m.parentModel = self.name)
    (hcm : ctx.model m.childModel = some cm)
    (hcf : cm.field m.childField = some cf)
    (hpf : self.field m.parentField = some pf) :
    resolveJoinHead ctx self alias? a =
      .ok ({ entity := cm.viewAdapter, asName := a, leftJoin := true,
             onLeft := { field := pf.name, entity := self.viewAdapter },
             onRight := { field := cf.name, entity := a } },
           m, none) := by
  unfold resolveJoinHead
  have h1 : (m.childModel == self.name) = false := by
    simpa using hnchild
  simp [hfa, hm, hcm, hcf, hpf, h1, hparent, hassoc]

/-- Merging one join into an empty `$expand` slot stores it as-is. -/
theorem mergeExpandJoins_undef_one (j : JoinExpr) :
    mergeExpandJoins .undef (.one j) = .single j := rfl

/-- Merging a join with a truthy alias already present leaves the join list
unchanged (the de-duplication at `queryable.js` lines 143-152). -/
theorem mergeExpandJoins_single_dup (j j' : JoinExpr) (hne : j.asName ≠ "")
    (heq : j'.asName = j.asName) :
    mergeExpandJoins (.single j) (.one j') = .list [j] := by
  unfold mergeExpandJoins
  simp [heq, hne]

/-- C1 (amended): resolving a two-segment path `a/b` whose first segment
carries an `association` mapping adds exactly one LEFT join to the query's
`$expand` list; the join's alias is the mapping's `childField` when the
model is the child side of the mapping (which equals the first path segment
exactly when the mapping's child field is the attribute `a` itself, as with
inferred foreign-key mappings) and the first path segment when the model is
the parent side; and resolving a second attribute `a/c` reusing the same
first segment leaves the join list unchanged — the de-duplication by join
alias never adds a second join. -/
theorem C1_nested_join_alias_dedup (ctx : DataContext) (s : DataQueryable)
    (p q a b c : String) (fa : DataField) (m : AssociationMapping)
    (hp : jsSplitSlash p = [a, b]) (hq : jsSplitSlash q = [a, c])
    (hslot : s.query.expandJoins = .undef)
    (hfa : s.model.field a = some fa)
    (hm : DataModel.inferMapping ctx s.model a = some m)
    (hassoc : m.associationType = "association")
    (hside :
      (m.childModel = s.model.name ∧ m.childField ≠ "" ∧
        ∃ pm cf pf, ctx.model m.parentModel = some pm ∧
          s.model.field m.childField = some cf ∧ pm.field m.parentField = some pf)
      ∨ (m.childModel ≠ s.model.name ∧ m.parentModel = s.model.name ∧ a ≠ "" ∧
        ∃ cm cf pf, ctx.model m.childModel = some cm ∧
          cm.field m.childField = some cf ∧ s.model.field m.parentField = some pf)) :
    ∃ j s1 f1 s2 f2,
      resolveNestedAttribute ctx s p = .ok (s1, f1) ∧
      s1.query.expandJoins.joins = [j] ∧
      j.leftJoin = true ∧
      j.asName = (if m.childModel = s.model.name then m.childField else a) ∧
      resolveNestedAttribute ctx s1 q = .ok (s2, f2) ∧
      s2.query.expandJoins.joins = s1.query.expandJoins.joins := by
  have hjunc : (m.associationType == "junction") = false := by
    simp [hassoc]
  rcases hside with ⟨hchild, hne, pm, cf, pf, hpm, hcf, hpf⟩ |
    ⟨hnchild, hparent, hane, cm, cf, pf, hcm, hcf, hpf⟩
  · -- child side
    have hhead := resolveJoinHead_child ctx s.model none a fa m pm cf pf
      hfa hm hassoc hchild hpm hcf hpf
    have hhead2 := resolveJoinHead_child ctx s.model none a fa m pm cf pf
      hfa hm hassoc hchild hpm hcf hpf
    set j : JoinExpr :=
      { entity := pm.viewAdapter, asName := m.childField, leftJoin := true,
        onLeft := { field := cf.name, entity := (none : Option String).getD s.model.viewAdapter },
        onRight := { field := m.parentField, entity := m.childField } } with hj
    have hseg : resolveJoinSegments ctx s.model none [a, b] = .ok (.one j) := by
      simp only [resolveJoinSegments, hhead]
    have hseg2 : resolveJoinSegments ctx s.model none [a, c] = .ok (.one j) := by
      simp only [resolveJoinSegments, hhead]
    have hres1 : resolveNestedAttribute ctx s p =
        .ok ({ s with query := { s.query with expandJoins := .single j } },
             QField.fromEnt b a) := by
      unfold resolveNestedAttribute
      simp [resolveNestedAttributeJoin, hp, hm, hjunc, hslot, hseg,
        mergeExpandJoins_undef_one]
    have hres2 : resolveNestedAttribute ctx
        ({ s with query := { s.query with expandJoins := .single j } } : DataQueryable) q =
        .ok ({ s with query := { s.query with expandJoins := .list [j] } },
             QField.fromEnt c a) := by
      unfold resolveNestedAttribute
      simp [resolveNestedAttributeJoin, hq, hm, hjunc, hseg2, mergeExpandJoins, hne]
    refine ⟨j, _, _, _, _, hres1, rfl, rfl, ?_, hres2, rfl⟩
    simp [hj, hchild]
  · -- parent side
    have hhead := resolveJoinHead_parent ctx s.model none a fa m cm cf pf
      hfa hm hassoc hnchild hparent hcm hcf hpf
    set j : JoinExpr :=
      { entity := cm.viewAdapter, asName := a, leftJoin := true,
        onLeft := { field := pf.name, entity := s.model.viewAdapter },
        onRight := { field := cf.name, entity := a } } with hj
    have hseg : resolveJoinSegments ctx s.model none [a, b] = .ok (.one j) := by
      simp only [resolveJoinSegments, hhead]
    have hseg2 : resolveJoinSegments ctx s.model none [a, c] = .ok (.one j) := by
      simp only [resolveJoinSegments, hhead]
    have hres1 : resolveNestedAttribute ctx s p =
        .ok ({ s with query := { s.query with expandJoins := .single j } },
             QField.fromEnt b a) := by
      unfold resolveNestedAttribute
      simp [resolveNestedAttributeJoin, hp, hm, hjunc, hslot, hseg,
        mergeExpandJoins_undef_one]
    have hres2 : resolveNestedAttribute ctx
        ({ s with query := { s.query with expandJoins := .single j } } : DataQueryable) q =
        .ok ({ s with query := { s.query with expandJoins := .list [j] } },
             QField.fromEnt c a) := by
      unfold resolveNestedAttribute
      simp [resolveNestedAttributeJoin, hq, hm, hjunc, hseg2, mergeExpandJoins, hane]
    refine ⟨j, _, _, _, _, hres1, rfl, rfl, ?_, hres2, rfl⟩
    simp [hj, hnchild]

/-- C1 counterexample: field `customer` of the order model carries an
association mapping whose `childField` is `cid`; resolving the two-segment
path `customer/description` adds a single join whose alias is `cid`, not the
first path segment `customer` — refuting the claimed alias. -/
theorem C1_join_alias_counterexample :
    (match resolveNestedAttribute fixCtx (DataQueryable.mk0 fixOrder) "customer/description" with
      | .ok (s1, _) => s1.query.expandJoins.joins.map (fun j => j.asName)
      | .error _ => []) = ["cid"] ∧ "cid" ≠ "customer" := by
  constructor
  · rfl
  · decide

/-- Witness for C1 at the concrete order model and the nested paths
`customer/description` and `customer/id`. -/
theorem C1_nested_join_alias_dedup_witness :
    ∃ j s1 f1 s2 f2,
      resolveNestedAttribute fixCtx (DataQueryable.mk0 fixOrder) "customer/description"
        = .ok (s1, f1) ∧
      s1.query.expandJoins.joins = [j] ∧
      j.leftJoin = true ∧
      j.asName = (if fixCidMapping.childModel = (DataQueryable.mk0 fixOrder).model.name
                  then fixCidMapping.childField else "customer") ∧
      resolveNestedAttribute fixCtx s1 "customer/id" = .ok (s2, f2) ∧
      s2.query.expandJoins.joins = s1.query.expandJoins.joins :=
  C1_nested_join_alias_dedup fixCtx (DataQueryable.mk0 fixOrder)
    "customer/description" "customer/id" "customer" "description" "id"
    fixCustomerField fixCidMapping
    (by decide) (by decide) rfl (by decide) (by decide) rfl
    (Or.inl ⟨rfl, by decide,
      fixPerson, fixCidField, { name := "id", ftype := "Counter" },
      by decide, by decide, by decide⟩)

/-! ## Pipeline lemmas -/

/-- Folding a function that fixes every list element leaves the seed. -/
theorem foldl_fixed {α β : Type} (l : List α) (f : β → α → β) (b : β)
    (h : ∀ x ∈ l, ∀ acc, f acc x = acc) : l.foldl f b = b := by
  induction l generalizing b with
  | nil => rfl
  | cons x t ih =>
    rw [List.foldl_cons, h x (by simp), ih]
    intro y hy acc
    exact h y (by simp [hy]) acc

/-- The expandable-projection step leaves the queryable unchanged when no
projected field names a hidden or expandable attribute. -/
theorem expandResolutionStep_eq_self (ctx : DataContext) (s : DataQueryable)
    (h : ∀ x ∈ s.query.fields, ∀ y ∈ s.model.attributes,
        x.nameOf = y.name → y.hidden = false ∧ y.expandable = false) :
    expandResolutionStep ctx s = s := by
  unfold expandResolutionStep
  cases hsel : s.query.selectFields with
  | none => rfl
  | some selected =>
    dsimp only
    have hfields : s.query.fields = selected := by
      simp [QueryExpr.fields, hsel]
    have hhid : ∀ x ∈ selected,
        ((s.model.attributes.filter (fun y => y.hidden)).find?
          (fun y => x.nameOf == y.name)) = none := by
      intro x hx
      rw [List.find?_eq_none]
      intro y hy
      have hmem := List.mem_filter.mp hy
      simp only [beq_iff_eq]
      intro hxy
      have := (h x (by rw [hfields]; exact hx) y hmem.1 hxy).1
      rw [this] at hmem
      simp at hmem
    have hexp : ∀ x ∈ selected,
        ((s.model.attributes.filter (fun y => y.expandable)).find?
          (fun y => x.nameOf == y.name)) = none := by
      intro x hx
      rw [List.find?_eq_none]
      intro y hy
      have hmem := List.mem_filter.mp hy
      simp only [beq_iff_eq]
      intro hxy
      have := (h x (by rw [hfields]; exact hx) y hmem.1 hxy).2
      rw [this] at hmem
      simp at hmem
    have hsel1 :
        (if (s.model.attributes.filter (fun y => y.hidden)).length > 0 then
          selected.filter (fun x =>
            ((s.model.attributes.filter (fun y => y.hidden)).find?
              (fun y => x.nameOf == y.name)).isNone)
        else selected) = selected := by
      split
      · apply List.filter_eq_self.mpr
        intro x hx
        rw [hhid x hx]
        rfl
      · rfl
    rw [hsel1]
    have hself : ({ s with query := { s.query with selectFields := some selected } } :
        DataQueryable) = s := by
      rw [← hsel]
    rw [hself]
    have hfold :
        (selected.foldl
          (fun acc x =>
            match (s.model.attributes.filter (fun y => y.expandable)).find?
                (fun y => x.nameOf == y.name) with
            | some field =>
              match acc.model.inferMapping ctx field.name with
              | some mp =>
                let cur := acc.expandList.getD []
                let acc1 := { acc with expandList := some cur }
                if (cur.find? (fun e => e.nameProp == some field.name)).isSome then acc1
                else acc1.expandPush (.byMapping mp)
              | none => acc
            | none => acc)
          s) = s := by
      apply foldl_fixed
      intro x hx acc
      rw [hexp x hx]
    split
    · exact hfold
    · rfl

/-- With a pass-through before-hook, no after-hook failure and no expand
entries, the dispatch reduces to collapse-of-adapter-rows. -/
theorem finalExecuteInternal_neutral (env : ExecEnv) (ctx : DataContext)
    (s : DataQueryable)
    (hhook : env.beforeHook = .ok none) (hafter : env.afterHookErr = none)
    (hexp : s.expandList = none) :
    (finalExecuteInternal env ctx s).outcome
      = .ok (toArrayCallbackFn s (dbExecute env s.query)) := by
  unfold finalExecuteInternal afterExecuteFn
  rw [hhook]
  simp only [hexp, hafter]
  split <;> rfl

/-- With a before-hook short-circuit result, no after-hook failure and no
expand entries, the dispatch reduces to collapse-of-hook-rows. -/
theorem finalExecuteInternal_shortcircuit (env : ExecEnv) (ctx : DataContext)
    (s : DataQueryable) (r : RawResult)
    (hhook : env.beforeHook = .ok (some r)) (hafter : env.afterHookErr = none)
    (hexp : s.expandList = none) :
    (finalExecuteInternal env ctx s).outcome = .ok (toArrayCallbackFn s r) := by
  unfold finalExecuteInternal afterExecuteFn
  rw [hhook]
  simp only [hexp, hafter]
  split <;> rfl

/-- A flattened queryable skips the expandable-projection step. -/
theorem executeQ_flat (env : ExecEnv) (ctx : DataContext) (s : DataQueryable)
    (hflat : s.flattenFlag = some true) :
    executeQ env ctx s = finalExecuteInternal env ctx s := by
  unfold executeQ
  simp [hflat]

/-- When the expandable-projection step fixes the queryable, execution is
plain dispatch. -/
theorem executeQ_eq_final (env : ExecEnv) (ctx : DataContext) (s : DataQueryable)
    (hstep : expandResolutionStep ctx s = s) :
    executeQ env ctx s = finalExecuteInternal env ctx s := by
  unfold executeQ
  dsimp only
  split
  · rfl
  · rw [hstep]

/-- Paging semantics of the modelled adapter for non-aggregate selects. -/
theorem dbExecute_paging (env : ExecEnv) (q : QueryExpr)
    (h : ∀ n e, q.selectFields ≠ some [QField.count n e]) :
    dbExecute env q =
      (match q.takeN with
       | some t => (env.table.drop (q.skipN.getD 0)).take t
       | none => env.table.drop (q.skipN.getD 0)) := by
  unfold dbExecute
  split
  · rename_i n e heq
    exact absurd heq (h n e)
  · rfl

/-! ## Claim C8 -/

/-- C8: `first()` always executes with skip 0 and take 1, overriding any skip
or take previously set on the query, and resolves with the first returned
row when the adapter returns a non-empty array and with `undefined` (not an
error) when it returns no rows. -/
theorem C8_first_skip_take (env : ExecEnv) (ctx : DataContext) (s : DataQueryable)
    (hhook : env.beforeHook = .ok none) (hafter : env.afterHookErr = none)
    (hexp : s.expandList = none) (hflat : s.flattenFlag = some true)
    (hasarr : s.asArrayFlag = false)
    (hfields : s.query.hasFields = true)
    (hplain : ∀ n e, s.query.selectFields ≠ some [QField.count n e]) :
    (((s.skip 0).takeQ 1).query.skipN = some 0 ∧
     ((s.skip 0).takeQ 1).query.takeN = some 1) ∧
    firstInternal env ctx s = .ok ((env.table.head?).map ResultItem.obj) := by
  refine ⟨⟨rfl, rfl⟩, ?_⟩
  obtain ⟨mdl, qry, exl, flf, lvl, asf⟩ := s
  obtain ⟨ent, sel, skp, tak, ord, grp, exj⟩ := qry
  dsimp only [DataQueryable.skip, DataQueryable.takeQ] at *
  subst hexp hflat hasarr
  unfold firstInternal takeInternal
  dsimp only [DataQueryable.skip, DataQueryable.takeQ]
  have h2 : (DataQueryable.selectNone
      ⟨mdl, ⟨ent, sel, some 0, some 1, ord, grp, exj⟩, none, some true, lvl, false⟩ :
      Except String DataQueryable)
      = .ok ⟨mdl, ⟨ent, sel, some 0, some 1, ord, grp, exj⟩, none, some true, lvl, false⟩ := by
    unfold DataQueryable.selectNone
    simp only [QueryExpr.hasFields, QueryExpr.fields] at hfields ⊢
    rw [if_pos hfields]
  rw [h2]
  dsimp only
  have h3 := executeQ_flat env ctx
    ⟨mdl, ⟨ent, sel, some 0, some 1, ord, grp, exj⟩, none, some true, lvl, false⟩ rfl
  rw [h3, finalExecuteInternal_neutral env ctx _ hhook hafter rfl]
  rw [dbExecute_paging env _ hplain]
  unfold toArrayCallbackFn
  cases htab : env.table with
  | nil => rfl
  | cons h t => rfl

/-- Flat queryable over the person model with stale paging values, used by
the pipeline witnesses. -/
def fixFirstState : DataQueryable :=
  { model := fixPerson,
    query := { entity := "PersonData", selectFields := some [QField.plain "id"],
               skipN := some 7, takeN := some 9 },
    flattenFlag := some true }

/-- Witness for C8 at the concrete flat queryable: the stale skip 7 / take 9
are overridden and the first table row is returned. -/
theorem C8_first_skip_take_witness :
    (((fixFirstState.skip 0).takeQ 1).query.skipN = some 0 ∧
     ((fixFirstState.skip 0).takeQ 1).query.takeN = some 1) ∧
    firstInternal fixEnv fixCtx fixFirstState
      = .ok ((fixEnv.table.head?).map ResultItem.obj) :=
  C8_first_skip_take fixEnv fixCtx fixFirstState rfl rfl rfl rfl rfl rfl
    (fun _n _e h => QField.noConfusion (List.cons.inj (Option.some.inj h)).1)

/-! ## Claim C10 -/

/-- C10: on a queryable with no projection set, `value()` first selects the
model's primary key and then resolves with the value of the first enumerable
property of the first matching row, or with `undefined` (not an error) when
no row matches. -/
theorem C10_value_semantics (env : ExecEnv) (ctx : DataContext) (s : DataQueryable)
    (hhook : env.beforeHook = .ok none) (hafter : env.afterHookErr = none)
    (hexp : s.expandList = none) (hflat : s.flattenFlag = some true)
    (hasarr : s.asArrayFlag = false)
    (hsel : s.query.selectFields = none)
    (pk : DataField)
    (hpk : s.model.field s.model.primaryKey = some pk)
    (hroute : pk.routesToExpand = false)
    (pk' : DataField) (hpk2 : s.model.field pk.name = some pk') :
    valueInternal env ctx s
      = .ok (env.table.head?.bind (fun r? =>
          r?.bind (fun row => row.head?.map (fun kv => kv.2)))) := by
  obtain ⟨mdl, qry, exl, flf, lvl, asf⟩ := s
  obtain ⟨ent, sel, skp, tak, ord, grp, exj⟩ := qry
  subst hexp hflat hasarr hsel
  have hpkA : mdl.field mdl.primaryKey = some pk := hpk
  have hpkB : mdl.field pk.name = some pk' := hpk2
  unfold valueInternal
  have hone : (DataQueryable.selectOne
      ⟨mdl, ⟨ent, none, skp, tak, ord, grp, exj⟩, none, some true, lvl, false⟩
      mdl.primaryKey : Except String DataQueryable)
      = .ok ⟨mdl, ⟨ent, some [fieldItemOf mdl.viewAdapter pk'], skp, tak, ord, grp, exj⟩,
             none, some true, lvl, false⟩ := by
    unfold DataQueryable.selectOne DataQueryable.fieldOf
    dsimp only
    rw [hpkA]
    dsimp only
    rw [if_neg (by simp [hroute]), hpkB]
    dsimp only
    unfold fieldItemOf
    cases pk'.property <;> rfl
  rw [show (if ((⟨mdl, ⟨ent, none, skp, tak, ord, grp, exj⟩, none, some true, lvl, false⟩ :
        DataQueryable).query.selectFields == none) = true
      then DataQueryable.selectOne
        ⟨mdl, ⟨ent, none, skp, tak, ord, grp, exj⟩, none, some true, lvl, false⟩
        mdl.primaryKey
      else .ok ⟨mdl, ⟨ent, none, skp, tak, ord, grp, exj⟩, none, some true, lvl, false⟩)
      = DataQueryable.selectOne
        ⟨mdl, ⟨ent, none, skp, tak, ord, grp, exj⟩, none, some true, lvl, false⟩
        mdl.primaryKey from rfl, hone]
  dsimp only
  unfold firstInternal takeInternal
  dsimp only [DataQueryable.skip, DataQueryable.takeQ]
  have h2 : (DataQueryable.selectNone
      ⟨mdl, ⟨ent, some [fieldItemOf mdl.viewAdapter pk'], some 0, some 1, ord, grp, exj⟩,
       none, some true, lvl, false⟩ : Except String DataQueryable)
      = .ok ⟨mdl, ⟨ent, some [fieldItemOf mdl.viewAdapter pk'], some 0, some 1, ord, grp, exj⟩,
             none, some true, lvl, false⟩ := by
    unfold DataQueryable.selectNone
    rw [if_pos (by simp [QueryExpr.hasFields, QueryExpr.fields])]
  rw [h2]
  dsimp only
  rw [executeQ_flat env ctx _ rfl, finalExecuteInternal_neutral env ctx _ hhook hafter rfl]
  rw [dbExecute_paging env _ (fun n e h => by
    unfold fieldItemOf at h
    cases hp : pk'.property <;> rw [hp] at h <;> simp at h)]
  unfold toArrayCallbackFn
  dsimp only
  cases htab : env.table with
  | nil => rfl
  | cons r t =>
    cases r with
    | none => rfl
    | some row =>
      cases hrow : row.head? with
      | none => simp [hrow]
      | some kv => simp [hrow]

/-- Queryable over the person model with no projection, for the C10 witness. -/
def fixValueState : DataQueryable :=
  { model := fixPerson, query := { entity := "PersonData" }, flattenFlag := some true }

/-- Witness for C10 at the concrete person queryable: the primary-key value
of the first table row is returned. -/
theorem C10_value_semantics_witness :
    valueInternal fixEnv fixCtx fixValueState
      = .ok (fixEnv.table.head?.bind (fun r? =>
          r?.bind (fun row => row.head?.map (fun kv => kv.2)))) :=
  C10_value_semantics fixEnv fixCtx fixValueState rfl rfl rfl rfl rfl rfl
    { name := "id", ftype := "Counter" } (by decide) (by decide)
    { name := "id", ftype := "Counter" } (by decide)

/-! ## Claim C9 -/

/-- C9: for a queryable whose model has at least one attribute, `count()`
deletes `$skip`, `$take`, `$order` and `$group` from the underlying query,
replaces the projection with a count over the model's first attribute, and
resolves with the count value taken from the first result row — or with
null (not 0 and not an error) when the adapter produces an empty result; a
model without attributes makes `count()` fail with an error. -/
theorem C9_count_semantics (env : ExecEnv) (ctx : DataContext) (s : DataQueryable)
    (hexp : s.expandList = none) (hasarr : s.asArrayFlag = false) :
    (s.model.attributes = [] →
      countInternal env ctx s = .error "Queryable collection does not have any property.") ∧
    (∀ f rest, s.model.attributes = f :: rest →
      (∀ y ∈ s.model.attributes, y.name = f.name → y.hidden = false ∧ y.expandable = false) →
      ((countQuery s f).skipN = none ∧ (countQuery s f).takeN = none ∧
       (countQuery s f).orderList = none ∧ (countQuery s f).groupList = none ∧
       (countQuery s f).selectFields = some [QField.count f.name s.model.viewAdapter]) ∧
      (env.beforeHook = .ok none → env.afterHookErr = none →
        countInternal env ctx s = .ok (some (.vInt (env.table.length : Int)))) ∧
      (env.beforeHook = .ok (some []) → env.afterHookErr = none →
        countInternal env ctx s = .ok none)) := by
  constructor
  · intro h
    unfold countInternal
    rw [h]
    rfl
  · intro f rest hattrs hfe
    refine ⟨⟨rfl, rfl, rfl, rfl, rfl⟩, ?_, ?_⟩
    all_goals
      have hhead : s.model.attributes.head? = some f := by rw [hattrs]; rfl
      have hs1exp : ({ s with query := countQuery s f } : DataQueryable).expandList = none :=
        hexp
      have hstep : expandResolutionStep ctx ({ s with query := countQuery s f }) =
          { s with query := countQuery s f } := by
        apply expandResolutionStep_eq_self
        intro x hx y hy hxy
        have hxval : x = QField.count f.name s.model.viewAdapter := by
          simpa [QueryExpr.fields, countQuery] using hx
        subst hxval
        have hfy : f.name = y.name := by simpa [QField.nameOf] using hxy
        exact hfe y hy hfy.symm
    · intro hhook hafter
      unfold countInternal
      rw [hhead]
      dsimp only
      rw [executeQ_eq_final env ctx _ hstep,
        finalExecuteInternal_neutral env ctx _ hhook hafter hs1exp]
      unfold toArrayCallbackFn
      rw [show ({ s with query := countQuery s f } : DataQueryable).asArrayFlag = false
        from hasarr]
      unfold dbExecute countQuery
      dsimp only
      simp [Row.lookup]
    · intro hhook hafter
      unfold countInternal
      rw [hhead]
      dsimp only
      rw [executeQ_eq_final env ctx _ hstep,
        finalExecuteInternal_shortcircuit env ctx _ [] hhook hafter hs1exp]
      unfold toArrayCallbackFn
      rw [show ({ s with query := countQuery s f } : DataQueryable).asArrayFlag = false
        from hasarr]
      rfl

/-- Environment whose before-hook chain short-circuits with an empty result. -/
def fixEnvEmptyResult : ExecEnv :=
  { table := fixTable, beforeHook := .ok (some []) }

/-- Witness for C9: the count over the three-row table resolves with 3, and
with null when the hook chain supplies an empty result. -/
theorem C9_count_semantics_witness :
    countInternal fixEnv fixCtx fixFirstState = .ok (some (.vInt 3)) ∧
    countInternal fixEnvEmptyResult fixCtx fixFirstState = .ok none := by
  constructor
  · exact (((C9_count_semantics fixEnv fixCtx fixFirstState rfl rfl).2
      { name := "id", ftype := "Counter" } [{ name := "description", ftype := "Text" }]
      rfl (by decide)).2.1 rfl rfl)
  · exact (((C9_count_semantics fixEnvEmptyResult fixCtx fixFirstState rfl rfl).2
      { name := "id", ftype := "Counter" } [{ name := "description", ftype := "Text" }]
      rfl (by decide)).2.2 rfl rfl)

/-! ## Claim C2 -/

/-- C2: `list()` resolves with `{ total, skip, records }` where the records
come from executing the query with the requested take (`$take || 25`, so the
take defaults to 25 when unset) and hence number at most that take; `skip`
equals the query's `$skip` (0 when unset); and `total` comes from a count on
a cloned query stripped of `$skip`/`$take`/`$order`/`$group`, so it counts
all matching rows regardless of paging and is at least `records.length`. -/
theorem C2_list_paging (env : ExecEnv) (ctx : DataContext) (s : DataQueryable)
    (hhook : env.beforeHook = .ok none) (hafter : env.afterHookErr = none)
    (hexp : s.expandList = none) (hflat : s.flattenFlag = some true)
    (hfields : s.query.hasFields = true)
    (f : DataField) (rest : List DataField) (hattrs : s.model.attributes = f :: rest)
    (hplain : ∀ n e, s.query.selectFields ≠ some [QField.count n e]) :
    ∃ rs, listInternal env ctx s = .ok rs ∧
      rs.records.length ≤ jsTakeOr25 s.query.takeN ∧
      rs.skip = s.query.skipN.getD 0 ∧
      rs.total = some (.vInt (env.table.length : Int)) ∧
      rs.records.length ≤ env.table.length := by
  obtain ⟨mdl, qry, exl, flf, lvl, asf⟩ := s
  obtain ⟨ent, sel, skp, tak, ord, grp, exj⟩ := qry
  have hattrsA : mdl.attributes = f :: rest := hattrs
  have hfieldsA : (!(sel.getD []).isEmpty) = true := hfields
  subst hexp hflat
  -- the page fetch
  set takeVal := jsTakeOr25 tak with htakeVal
  set rows : RawResult := (env.table.drop (skp.getD 0)).take takeVal with hrows
  set sTake : DataQueryable :=
    ⟨mdl, ⟨ent, sel, skp, some takeVal, ord, grp, exj⟩, none, some true, lvl, asf⟩
    with hsTake
  have htake : takeInternal env ctx
      ⟨mdl, ⟨ent, sel, skp, tak, ord, grp, exj⟩, none, some true, lvl, asf⟩ takeVal
      = .ok (toArrayCallbackFn sTake rows) := by
    unfold takeInternal
    dsimp only [DataQueryable.takeQ]
    have h2 : (DataQueryable.selectNone sTake : Except String DataQueryable) = .ok sTake := by
      unfold DataQueryable.selectNone
      rw [if_pos (show sTake.query.hasFields = true from hfieldsA)]
    rw [hsTake] at h2
    rw [h2]
    dsimp only
    rw [executeQ_flat env ctx _ rfl, finalExecuteInternal_neutral env ctx _ hhook hafter rfl]
    dsimp only
    have hplainA : ∀ n e, sel ≠ some [QField.count n e] := hplain
    rw [dbExecute_paging env
      ({ entity := ent, selectFields := sel, skipN := skp, takeN := some takeVal,
         orderList := ord, groupList := grp, expandJoins := exj } : QueryExpr) hplainA]
  -- the count on the clone
  have hcount : countInternal env ctx
      (DataQueryable.clone ⟨mdl, ⟨ent, sel, skp, tak, ord, grp, exj⟩, none, some true, lvl, asf⟩)
      = .ok (some (.vInt (env.table.length : Int))) := by
    unfold DataQueryable.clone countInternal
    dsimp only
    rw [show mdl.attributes.head? = some f by rw [hattrsA]; rfl]
    dsimp only
    rw [executeQ_flat env ctx _ rfl, finalExecuteInternal_neutral env ctx _ hhook hafter rfl]
    unfold toArrayCallbackFn dbExecute countQuery
    dsimp only
    simp [Row.lookup]
  unfold listInternal
  dsimp only
  have hsel0 : (DataQueryable.selectNone
      ⟨mdl, ⟨ent, sel, skp, tak, ord, grp, exj⟩, none, some true, lvl, asf⟩ :
      Except String DataQueryable)
      = .ok ⟨mdl, ⟨ent, sel, skp, tak, ord, grp, exj⟩, none, some true, lvl, asf⟩ := by
    unfold DataQueryable.selectNone
    rw [if_pos (show (⟨mdl, ⟨ent, sel, skp, tak, ord, grp, exj⟩, none, some true, lvl, asf⟩ :
      DataQueryable).query.hasFields = true from hfieldsA)]
  rw [hsel0]
  dsimp only
  rw [htake]
  dsimp only
  rw [hcount]
  refine ⟨_, rfl, ?_, rfl, rfl, ?_⟩
  · calc (toArrayCallbackFn sTake rows).length
        ≤ rows.length := toArrayCallbackFn_length_le sTake rows
      _ ≤ takeVal := by rw [hrows]; simp [List.length_take]
  · calc (toArrayCallbackFn sTake rows).length
        ≤ rows.length := toArrayCallbackFn_length_le sTake rows
      _ ≤ env.table.length := by
          rw [hrows]
          have h2 : (env.table.drop (skp.getD 0)).length ≤ env.table.length := by
            simp [List.length_drop]
          have h3 := List.length_take_le takeVal (env.table.drop (skp.getD 0))
          simp only [List.length_take] at h3 ⊢
          omega

/-- Witness for C2 at the concrete flat queryable over the three-row table. -/
theorem C2_list_paging_witness :
    ∃ rs, listInternal fixEnv fixCtx fixFirstState = .ok rs ∧
      rs.records.length ≤ jsTakeOr25 fixFirstState.query.takeN ∧
      rs.skip = fixFirstState.query.skipN.getD 0 ∧
      rs.total = some (.vInt (fixEnv.table.length : Int)) ∧
      rs.records.length ≤ fixEnv.table.length :=
  C2_list_paging fixEnv fixCtx fixFirstState rfl rfl rfl rfl rfl
    { name := "id", ftype := "Counter" } [{ name := "description", ftype := "Text" }] rfl
    (fun _n _e h => QField.noConfusion (List.cons.inj (Option.some.inj h)).1)

/-! ## Claim C3 -/

/-- `fieldOf` at a plain name that resolves to an attribute yields that
attribute's projection item. -/
theorem fieldOf_plain (st : DataQueryable) (n : String) (y : DataField)
    (h : st.model.field n = some y) :
    st.fieldOf n = .ok (fieldItemOf st.model.viewAdapter y) := by
  unfold DataQueryable.fieldOf fieldItemOf
  rw [h]
  dsimp only
  cases hp : y.property <;> rfl

/-- Specification of the select loop over attribute names that each resolve
back to their own attribute: non-routed attributes append their projection
items in order, routed attributes push their names onto the expand list. -/
theorem selectManyLoop_spec (l : List DataField) :
    ∀ (st : DataQueryable) (arr : List QField),
    (∀ y ∈ l, st.model.field (y.property.getD y.name) = some y ∧
              st.model.field y.name = some y) →
    selectManyLoop st arr (l.map (fun y => y.property.getD y.name))
      = .ok
        ({ st with expandList :=
            if (l.filter (fun y => y.routesToExpand)).isEmpty then st.expandList
            else some ((st.expandList.getD []) ++
              ((l.filter (fun y => y.routesToExpand)).map
                (fun y => ExpandEntry.byName y.name))) },
         arr ++ (l.filter (fun y => !y.routesToExpand)).map
             (fun y => fieldItemOf st.model.viewAdapter y)) := by
  induction l with
  | nil =>
    intro st arr _h
    simp [selectManyLoop]
  | cons y t ih =>
    intro st arr h
    have hy := h y (by simp)
    rw [List.map_cons]
    unfold selectManyLoop
    rw [hy.1]
    dsimp only
    cases hr : y.routesToExpand with
    | true =>
      rw [if_pos rfl]
      have ht : ∀ z ∈ t, (st.expandPush (.byName y.name)).model.field
            (z.property.getD z.name) = some z ∧
          (st.expandPush (.byName y.name)).model.field z.name = some z :=
        fun z hz => h z (by simp [hz])
      rw [ih (st.expandPush (.byName y.name)) arr ht]
      simp only [List.filter_cons, hr, if_pos, List.map_cons, DataQueryable.expandPush]
      by_cases he : (t.filter (fun z => z.routesToExpand)).isEmpty
      · have hall : ∀ a ∈ t, a.routesToExpand = false := by
          simpa [List.isEmpty_iff, List.filter_eq_nil_iff] using he
        simp [he]
        exact hall
      · simp [he, List.append_assoc]
    | false =>
      rw [if_neg (by simp [hr])]
      rw [fieldOf_plain st y.name y hy.2]
      dsimp only
      have ht : ∀ z ∈ t, st.model.field (z.property.getD z.name) = some z ∧
          st.model.field z.name = some z :=
        fun z hz => h z (by simp [hz])
      rw [ih st (arr ++ [fieldItemOf st.model.viewAdapter y]) ht]
      simp [List.filter_cons, hr]

/-- The projection item of an attribute keeps the attribute's storage name. -/
theorem nameOf_fieldItemOf (va : String) (y : DataField) :
    (fieldItemOf va y).nameOf = y.name := by
  unfold fieldItemOf
  cases y.property <;> rfl

/-- C3 (amended): an attribute naming a field that is `many` or
junction-mapped is never appended to the flat projection — `expand` is
invoked with the field's name instead. In particular, `select('*')` followed
by no explicit expand, executed against a model whose only such field is an
expandable `many` field (with positive levels), yields a projection
excluding that field and an expand list containing exactly that field's
name: the name string, not the field's association mapping, which is only
resolved later during association expansion. -/
theorem C3_select_star_routing (s : DataQueryable) (g : DataField)
    (hexp : s.expandList = none)
    (hg1 : s.model.attributes.filter (fun y => y.routesToExpand) = [g])
    (hgmany : g.jsMany = true) (hgexp : g.expandable = true)
    (hlev : s.getLevels > 0)
    (hnames : ∀ y ∈ s.model.attributes,
      s.model.field (y.property.getD y.name) = some y ∧ s.model.field y.name = some y) :
    ∃ s1, s.selectStar.selectNone = .ok s1 ∧
      (∀ qf ∈ s1.query.fields, qf.nameOf ≠ g.name) ∧
      s1.expandList = some [ExpandEntry.byName g.name] := by
  have hgmem : g ∈ s.model.attributes := by
    have hm : g ∈ s.model.attributes.filter (fun y => y.routesToExpand) := by
      rw [hg1]; simp
    exact (List.mem_filter.mp hm).1
  have hgroutes : g.routesToExpand = true := by
    unfold DataField.routesToExpand
    rw [hgmany]
    rfl
  have hmany : g.many = some true := by simpa [DataField.jsMany] using hgmany
  -- restate the hypotheses over the star-selected state (definitional casts)
  have hexpA : s.selectStar.expandList = none := hexp
  have hg1A : s.selectStar.model.attributes.filter (fun y => y.routesToExpand) = [g] := hg1
  have hlevA : s.selectStar.getLevels > 0 := hlev
  have hnamesA : ∀ y ∈ s.selectStar.model.attributes,
      s.selectStar.model.field (y.property.getD y.name) = some y ∧
      s.selectStar.model.field y.name = some y := hnames
  unfold DataQueryable.selectNone
  rw [if_neg (by
    simp [DataQueryable.selectStar, QueryExpr.hasFields, QueryExpr.fields])]
  unfold DataQueryable.selectMany DataQueryable.defaultFieldNames
  have hforl : ∀ y ∈ s.selectStar.model.attributes.filter (fun x =>
      x.many == some false || x.many == none ||
        (x.expandable && s.selectStar.getLevels > 0)),
      s.selectStar.model.field (y.property.getD y.name) = some y ∧
      s.selectStar.model.field y.name = some y :=
    fun y hy => hnamesA y (List.mem_filter.mp hy).1
  rw [selectManyLoop_spec _ s.selectStar [] hforl]
  have hPg : (g.many == some false || g.many == none ||
      (g.expandable && s.selectStar.getLevels > 0)) = true := by
    rw [hmany, hgexp]
    simp [hlevA]
  have hroutefilter :
      (s.selectStar.model.attributes.filter (fun x =>
        x.many == some false || x.many == none ||
          (x.expandable && s.selectStar.getLevels > 0))).filter
        (fun y => y.routesToExpand) = [g] := by
    rw [List.filter_filter]
    have hcg : ∀ a ∈ s.selectStar.model.attributes,
        (a.routesToExpand &&
          (a.many == some false || a.many == none ||
            (a.expandable && s.selectStar.getLevels > 0))) = a.routesToExpand := by
      intro a ha
      cases hra : a.routesToExpand with
      | false => rfl
      | true =>
        have hag : a = g := by
          have hmem2 : a ∈ s.selectStar.model.attributes.filter
              (fun y => y.routesToExpand) := List.mem_filter.mpr ⟨ha, hra⟩
          rw [hg1A] at hmem2
          simpa using hmem2
        subst hag
        rw [hPg]
        rfl
    rw [List.filter_congr hcg, hg1A]
  dsimp only
  refine ⟨_, rfl, ?_, ?_⟩
  · -- the projection excludes the many field
    intro qf hqf
    simp only [QueryExpr.fields, Option.getD, List.nil_append] at hqf
    have hqf2 := List.mem_map.mp hqf
    obtain ⟨y, hy, hyq⟩ := hqf2
    have hymem := List.mem_filter.mp hy
    have hynr : y.routesToExpand = false := by
      simpa using hymem.2
    subst hyq
    rw [nameOf_fieldItemOf]
    intro hyg
    have h1 := (hnamesA y (List.mem_filter.mp hymem.1).1).2
    have h2 := (hnamesA g hgmem).2
    rw [hyg, h2] at h1
    have : g = y := by
      simpa using h1
    rw [← this, hgroutes] at hynr
    exact Bool.true_eq_false.mp hynr
  · -- the expand list holds exactly the field name
    rw [hroutefilter]
    simp [hexpA]

/-- The single `many` (and expandable) field of the pet-owner model. -/
def fixPetsField : DataField :=
  { name := "pets", ftype := "Pet", many := some true, expandable := true }

/-- A model whose `owner` field refers back to the pet-owner model. -/
def fixPet : DataModel :=
  { name := "Pet", viewAdapter := "PetData", primaryKey := "id",
    attributes :=
      [ { name := "id", ftype := "Counter" },
        { name := "owner", ftype := "PetOwner" } ] }

/-- A model with exactly one `many` field. -/
def fixPetOwner : DataModel :=
  { name := "PetOwner", viewAdapter := "PetOwnerData", primaryKey := "id",
    attributes :=
      [ { name := "id", ftype := "Counter" },
        { name := "name", ftype := "Text" },
        fixPetsField ] }

/-- Context holding the pet-owner pair. -/
def fixCtxPets : DataContext := { models := [fixPetOwner, fixPet] }

/-- The association mapping inferred for the `pets` field. -/
def fixPetsMapping : AssociationMapping :=
  { parentModel := "PetOwner", parentField := "id",
    childModel := "Pet", childField := "owner",
    associationType := "association", cascade := "null", refersTo := some "pets" }

/-- C3 counterexample: against the pet-owner model, `select('*')` followed by
the execution-time projection build yields the projection `id, name`
(excluding `pets`) and an expand list containing exactly the string `pets` —
the field's name — and not the field's association mapping, refuting the
claimed expand-list content. -/
theorem C3_expand_entry_counterexample :
    DataModel.inferMapping fixCtxPets fixPetOwner "pets" = some fixPetsMapping ∧
    (match (DataQueryable.mk0 fixPetOwner).selectStar.selectNone with
      | .ok s1 => (s1.query.fields.map QField.nameOf, s1.expandList)
      | .error _ => ([], none))
      = (["id", "name"], some [ExpandEntry.byName "pets"]) ∧
    ExpandEntry.byName "pets" ≠ ExpandEntry.byMapping fixPetsMapping := by
  refine ⟨by decide, rfl, by decide⟩

/-- Witness for C3 at the concrete pet-owner model. -/
theorem C3_select_star_routing_witness :
    ∃ s1, (DataQueryable.mk0 fixPetOwner).selectStar.selectNone = .ok s1 ∧
      (∀ qf ∈ s1.query.fields, qf.nameOf ≠ fixPetsField.name) ∧
      s1.expandList = some [ExpandEntry.byName fixPetsField.name] :=
  C3_select_star_routing (DataQueryable.mk0 fixPetOwner) fixPetsField
    rfl (by decide) (by decide) rfl (by decide) (by decide)

end Themost
